import Mathlib

/-!
Verification of the bounded-retry conversation-history manager in `app.py`:
the Conversation Store (a list of role/content/timestamp turns), the History
Trimmer (`trim_history`), the prompt serialization, and the retry loop of the
send-button handler (3 attempts, trim-and-backoff on a quota "429" failure,
fallback reply on exhaustion).
-/

/-- One conversation message: `{"role": ..., "content": ..., "timestamp": ...}`. -/
structure Turn where
  role : String
  content : String
  timestamp : String
deriving DecidableEq

/-- The fixed system prompt (`SYSTEM_PROMPT` in `app.py`). -/
def SYSTEM_PROMPT : String :=
  "1) 사용자는 쇼핑몰 구매 과정에서 겪은 불편/불만을 언급합니다. 정중하고 공감 어린 말투로 응답하세요.\n" ++
  "2) 사용자의 불편 사항을 구체적으로 정리하여(무엇이/언제/어디서/어떻게) 수집하고, 이를 고객 응대 담당자에게 전달한다는 취지로 안내하세요.\n" ++
  "3) 마지막에는 담당자 확인 후 회신을 위해 이메일 주소를 요청하세요. 만일 사용자가 연락 제공을 원치 않으면: " ++
  "“죄송하지만, 연락처 정보를 받지 못하여 담당자의 검토 내용을 받으실 수 없어요.”라고 정중히 안내하세요."

/-- The fallback reply produced when all retries fail with 429. -/
def FALLBACK_MSG : String := "죄송합니다. 서버가 바쁩니다. 잠시 후 다시 시도해주세요."

/-- Initial (and reset) conversation: a single system turn seeded from
`SYSTEM_PROMPT` with a fresh timestamp (`app.py` lines 108-112 and 118-121). -/
def init_history (ts : String) : List Turn :=
  [⟨"system", SYSTEM_PROMPT, ts⟩]

/-- `trim_history(history, keep_turns)` from `app.py` lines 70-72:
`[m for m in history if m["role"] == "system"][:1] + non_sys[-keep_turns:]`.
The Python slice `non_sys[-keep_turns:]` is the whole list when
`keep_turns = 0` and the last `keep_turns` elements otherwise, which is
`non_sys.drop (non_sys.length - keep_turns)` using truncated subtraction. -/
def trim_history (history : List Turn) (keep_turns : Nat) : List Turn :=
  let non_sys := history.filter (fun m => m.role != "system")
  (history.filter (fun m => m.role == "system")).take 1 ++
    (if keep_turns = 0 then non_sys else non_sys.drop (non_sys.length - keep_turns))

/-- The Python `str.upper()` on the role strings: uppercase every character.
Written over the character list (rather than `String.map`, whose
implementation recurses on byte positions) so that it evaluates by
structural recursion; extensionally it is `String.toUpper`. -/
def upper_str (s : String) : String :=
  String.mk (s.data.map Char.toUpper)

/-- One turn rendered as a role-tagged block: the f-string
`[{m["role"].upper()}]\n{m["content"]}` of `app.py` line 159. -/
def render_turn (m : Turn) : String :=
  "[" ++ upper_str m.role ++ "]\n" ++ m.content

/-- The outbound prompt: turns rendered and joined with a newline
(`"\n".join(...)`, `app.py` line 159). -/
def serialize_history (history : List Turn) : String :=
  String.intercalate "\n" (history.map render_turn)

/-- Boolean test that the character list `pat` starts the character list
given second. -/
def startsWithChars : List Char → List Char → Bool
  | [], _ => true
  | _ :: _, [] => false
  | a :: as, b :: bs => a == b && startsWithChars as bs

/-- Boolean substring test on character lists. -/
def containsChars (pat : List Char) : List Char → Bool
  | [] => startsWithChars pat []
  | b :: bs => startsWithChars pat (b :: bs) || containsChars pat bs

/-- The Python substring test `pat in s` on strings. -/
def strContains (s pat : String) : Bool :=
  containsChars pat.data s.data

/-- The quota detection of `app.py` line 166: `"429" in str(e)`. -/
def has429 (msg : String) : Bool :=
  strContains msg "429"

/-- Outcome of one Completion Client call: generated text, or an exception
whose `str(e)` is `msg`. -/
inductive Outcome where
  | success (text : String)
  | failure (msg : String)
deriving DecidableEq

/-- `true` exactly when the outcome is a failure the code treats as quota. -/
def isQuota : Outcome → Bool
  | Outcome.success _ => false
  | Outcome.failure msg => has429 msg

/-- Observable events of one send: a Completion Client call with the prompt
actually passed, or a trim of the stored conversation. -/
inductive Event where
  | call (prompt : String)
  | trim
deriving DecidableEq

/-- How the retry loop of `app.py` lines 160-174 ends: `break` with a reply,
a re-raised non-quota exception, or falling off the loop into `else`. -/
inductive LoopResult where
  | ok (reply : String)
  | raised (msg : String)
  | exhausted
deriving DecidableEq

/-- The retry loop of `app.py` lines 160-174. `client i` is the outcome of the
`i`-th Completion Client invocation; `prompt` was computed once, before the
loop (line 159), and is reused verbatim on every attempt. On a quota failure
the stored history is trimmed with `keep_turns = 6` and the loop continues;
on any other failure the exception is re-raised. Returns the loop result, the
stored history as it stands, and the event trace. -/
def run_loop (client : Nat → Outcome) (prompt : String) :
    Nat → Nat → List Turn → LoopResult × List Turn × List Event
  | 0, _, history => (LoopResult.exhausted, history, [])
  | n + 1, i, history =>
    match client i with
    | Outcome.success t => (LoopResult.ok t, history, [Event.call prompt])
    | Outcome.failure msg =>
      if has429 msg then
        let step := run_loop client prompt n (i + 1) (trim_history history 6)
        (step.1, step.2.1, Event.call prompt :: Event.trim :: step.2.2)
      else
        (LoopResult.raised msg, history, [Event.call prompt])

/-- A user turn as appended at `app.py` lines 150-152. -/
def user_turn (input ts : String) : Turn := ⟨"user", input, ts⟩

/-- An assistant turn as appended at `app.py` lines 176-178. -/
def assistant_turn (text ts : String) : Turn := ⟨"assistant", text, ts⟩

/-- What the send handler surfaces: an assistant reply (real or fallback),
an error display from the outer `except` clause, or the missing-credential
error display. -/
inductive SendResult where
  | replied (reply : String)
  | errored (msg : String)
  | noKey
deriving DecidableEq

/-- The send-button handler of `app.py` lines 149-182, given a non-empty
stripped input. The user turn is appended first; if no API key is present an
error is shown and nothing else happens; otherwise the prompt is serialized
once from the updated history, `retries = 3` attempts run, and either the
reply (from the loop, or the fallback after exhaustion) is appended as an
assistant turn, or the re-raised exception is caught and displayed.
Returns the surfaced result, the final stored history, and the event trace. -/
def send (history0 : List Turn) (user_input : String) (api_key : Bool)
    (client : Nat → Outcome) (ts_user ts_assistant : String) :
    SendResult × List Turn × List Event :=
  let h1 := history0 ++ [user_turn user_input ts_user]
  if !api_key then
    (SendResult.noKey, h1, [])
  else
    let prompt := serialize_history h1
    let step := run_loop client prompt 3 0 h1
    match step.1 with
    | LoopResult.ok t =>
        (SendResult.replied t, step.2.1 ++ [assistant_turn t ts_assistant], step.2.2)
    | LoopResult.exhausted =>
        (SendResult.replied FALLBACK_MSG,
          step.2.1 ++ [assistant_turn FALLBACK_MSG ts_assistant], step.2.2)
    | LoopResult.raised msg => (SendResult.errored msg, step.2.1, step.2.2)

/-- Number of Completion Client calls recorded in a trace. -/
def callCount (evs : List Event) : Nat :=
  (evs.filter (fun e => match e with | Event.call _ => true | Event.trim => false)).length

/-- Number of trims recorded in a trace. -/
def trimCount (evs : List Event) : Nat :=
  (evs.filter (fun e => match e with | Event.trim => true | Event.call _ => false)).length

/-- The conversation invariant: at most one turn has role `system`, and every
turn past index 0 is non-system (so a system turn, if present, is at index 0). -/
def sysInv (c : List Turn) : Prop :=
  (c.filter (fun m => m.role == "system")).length ≤ 1 ∧
    ∀ m ∈ c.drop 1, (m.role == "system") = false

instance (c : List Turn) : Decidable (sysInv c) := by
  unfold sysInv
  infer_instance

/-- The first system turn of a conversation, if any. -/
def first_system (c : List Turn) : Option Turn :=
  c.find? (fun m => m.role == "system")

/-- The last `k` elements of a list, in their original order (spec-side
formulation of "the last `keepTurns` non-system Turns"). -/
def last_turns (k : Nat) (l : List Turn) : List Turn :=
  (l.reverse.take k).reverse

/-- The trimmer as the spec describes it: the first system turn (if any)
followed by the last `k` non-system turns in original order. -/
def trim_spec (c : List Turn) (k : Nat) : List Turn :=
  (match first_system c with | some s => [s] | none => []) ++
    last_turns k (c.filter (fun m => m.role != "system"))

/-! ### Helper lemmas about the trimmer -/

lemma trim_history_def (c : List Turn) (k : Nat) :
    trim_history c k =
      (c.filter (fun m => m.role == "system")).take 1 ++
        (if k = 0 then c.filter (fun m => m.role != "system")
         else (c.filter (fun m => m.role != "system")).drop
           ((c.filter (fun m => m.role != "system")).length - k)) := rfl

lemma mem_take_one_system (c : List Turn) :
    ∀ m ∈ (c.filter (fun m => m.role == "system")).take 1,
      (m.role == "system") = true := by
  intro m hm
  exact (List.mem_filter.mp (List.mem_of_mem_take hm)).2

lemma mem_slice_nonsys (c : List Turn) (k : Nat) :
    ∀ m ∈ (if k = 0 then c.filter (fun m => m.role != "system")
           else (c.filter (fun m => m.role != "system")).drop
             ((c.filter (fun m => m.role != "system")).length - k)),
      (m.role != "system") = true := by
  intro m hm
  have hmem : m ∈ c.filter (fun m => m.role != "system") := by
    by_cases hk : k = 0
    · simpa [hk] using hm
    · rw [if_neg hk] at hm
      exact List.drop_subset _ _ hm
  exact (List.mem_filter.mp hmem).2

lemma filter_sys_trim (c : List Turn) (k : Nat) :
    (trim_history c k).filter (fun m => m.role == "system") =
      (c.filter (fun m => m.role == "system")).take 1 := by
  rw [trim_history_def, List.filter_append]
  have h1 := List.filter_eq_self.mpr (mem_take_one_system c)
  have h2 : (if k = 0 then c.filter (fun m => m.role != "system")
      else (c.filter (fun m => m.role != "system")).drop
        ((c.filter (fun m => m.role != "system")).length - k)).filter
        (fun m => m.role == "system") = [] := by
    refine List.filter_eq_nil_iff.mpr ?_
    intro a ha
    have h := mem_slice_nonsys c k a ha
    simp only [bne_iff_ne, ne_eq] at h
    simp [h]
  rw [h1, h2, List.append_nil]

lemma filter_nonsys_trim (c : List Turn) (k : Nat) :
    (trim_history c k).filter (fun m => m.role != "system") =
      (if k = 0 then c.filter (fun m => m.role != "system")
       else (c.filter (fun m => m.role != "system")).drop
         ((c.filter (fun m => m.role != "system")).length - k)) := by
  rw [trim_history_def, List.filter_append]
  have h1 : ((c.filter (fun m => m.role == "system")).take 1).filter
      (fun m => m.role != "system") = [] := by
    refine List.filter_eq_nil_iff.mpr ?_
    intro a ha
    have h := mem_take_one_system c a ha
    simp only [beq_iff_eq] at h
    simp [h]
  have h2 := List.filter_eq_self.mpr (mem_slice_nonsys c k)
  rw [h1, h2, List.nil_append]

lemma nonsys_trim_length_le (c : List Turn) (k : Nat) (hk : 1 ≤ k) :
    ((trim_history c k).filter (fun m => m.role != "system")).length ≤ k := by
  rw [filter_nonsys_trim, if_neg (by omega : ¬ k = 0), List.length_drop]
  omega

lemma trim_head_system (c : List Turn) (k : Nat) (m : Turn)
    (hc : c.head? = some m) (hm : m.role = "system") :
    (trim_history c k).head? = some m := by
  cases c with
  | nil => simp at hc
  | cons a t =>
    have ha : a = m := by simpa using hc
    subst ha
    rw [trim_history_def, List.filter_cons]
    simp [hm]

lemma trim_getLast_nonsys (c : List Turn) (k : Nat) (u : Turn)
    (hu : c.getLast? = some u) (hns : (u.role == "system") = false) :
    (trim_history c k).getLast? = some u := by
  obtain ⟨l, rfl⟩ := List.getLast?_eq_some_iff.mp hu
  have e1 : (l ++ [u]).filter (fun m => m.role == "system") =
      l.filter (fun m => m.role == "system") := by
    rw [List.filter_append]
    simp [List.filter_cons, hns]
  have e2 : (l ++ [u]).filter (fun m => m.role != "system") =
      l.filter (fun m => m.role != "system") ++ [u] := by
    rw [List.filter_append]
    simp [List.filter_cons, bne, hns]
  rw [trim_history_def, e1, e2]
  by_cases hk : k = 0
  · rw [if_pos hk, ← List.append_assoc, List.getLast?_concat]
  · have hd : (l.filter (fun m => m.role != "system") ++ [u]).length - k ≤
        (l.filter (fun m => m.role != "system")).length := by
      rw [List.length_append]
      simp only [List.length_cons, List.length_nil]
      omega
    rw [if_neg hk, List.drop_append_of_le_length hd, ← List.append_assoc,
      List.getLast?_concat]

lemma take_one_filter_eq_find (c : List Turn) (p : Turn → Bool) :
    (c.filter p).take 1 = (match c.find? p with | some s => [s] | none => []) := by
  induction c with
  | nil => simp
  | cons a t ih =>
    by_cases hp : p a = true
    · simp [List.filter_cons, List.find?_cons_of_pos _ hp, hp]
    · rw [List.filter_cons, if_neg (by simp [hp]),
        List.find?_cons_of_neg _ (by simp [hp])]
      exact ih

lemma last_turns_eq_drop (k : Nat) (l : List Turn) :
    last_turns k l = l.drop (l.length - k) := by
  rw [last_turns, ← List.rtake_eq_reverse_take_reverse, List.rtake]

/-! ### Helper lemmas about the retry loop -/

lemma run_loop_callCount (client : Nat → Outcome) (prompt : String) :
    ∀ (n i : Nat) (h : List Turn),
      callCount (run_loop client prompt n i h).2.2 ≤ n := by
  intro n
  induction n with
  | zero => intro i h; simp [run_loop, callCount]
  | succ n ih =>
    intro i h
    cases hcl : client i with
    | success t => simp [run_loop, hcl, callCount]
    | failure msg =>
      by_cases hq : has429 msg = true
      · have := ih (i + 1) (trim_history h 6)
        simp only [run_loop, hcl, hq, if_true]
        simpa [callCount, List.filter_cons] using this
      · simp [run_loop, hcl, hq, callCount]

lemma run_loop_raised_getLast (client : Nat → Outcome) (prompt : String) :
    ∀ (n i : Nat) (h : List Turn) (u : Turn) (msg : String),
      h.getLast? = some u → (u.role == "system") = false →
      (run_loop client prompt n i h).1 = LoopResult.raised msg →
      (run_loop client prompt n i h).2.1.getLast? = some u := by
  intro n
  induction n with
  | zero => intro i h u msg _ _ hr; simp [run_loop] at hr
  | succ n ih =>
    intro i h u msg hu hns hr
    cases hcl : client i with
    | success t => rw [run_loop, hcl] at hr; simp at hr
    | failure m =>
      by_cases hq : has429 m = true
      · rw [run_loop, hcl] at hr ⊢
        simp only [hq, if_true] at hr ⊢
        exact ih (i + 1) (trim_history h 6) u msg
          (trim_getLast_nonsys h 6 u hu hns) hns hr
      · rw [run_loop, hcl] at hr ⊢
        simp only [hq] at hr ⊢
        simp [hu]

lemma run_loop_quota (client : Nat → Outcome) (prompt : String)
    (hq : ∀ i, isQuota (client i) = true) :
    ∀ (n i : Nat) (h : List Turn), 1 ≤ n →
      (run_loop client prompt n i h).1 = LoopResult.exhausted ∧
      ∃ h0, (run_loop client prompt n i h).2.1 = trim_history h0 6 := by
  intro n
  induction n with
  | zero => intro i h h1; omega
  | succ n ih =>
    intro i h _
    cases hcl : client i with
    | success t => have := hq i; rw [hcl] at this; simp [isQuota] at this
    | failure m =>
      have hm : has429 m = true := by have := hq i; rwa [hcl] at this
      rw [run_loop, hcl]
      simp only [hm, if_true]
      cases n with
      | zero => exact ⟨rfl, ⟨h, rfl⟩⟩
      | succ n2 =>
        have := ih (i + 1) (trim_history h 6) (by omega)
        exact ⟨this.1, this.2⟩

/-! ### Helper lemmas about the system-turn invariant -/

lemma drop_one_append_small (P : Turn → Prop) (s slice : List Turn)
    (hs : s.length ≤ 1) (hsl : ∀ m ∈ slice, P m) :
    ∀ m ∈ (s ++ slice).drop 1, P m := by
  intro m hm
  cases s with
  | nil =>
    rw [List.nil_append] at hm
    exact hsl m (List.drop_subset _ _ hm)
  | cons x xs =>
    have hxs : xs = [] := by
      simp only [List.length_cons] at hs
      exact List.eq_nil_of_length_eq_zero (by omega)
    subst hxs
    simp only [List.cons_append, List.nil_append, List.drop_succ_cons,
      List.drop_zero] at hm
    exact hsl m hm

lemma sysInv_append_nonsys (c : List Turn) (t : Turn)
    (ht : (t.role == "system") = false) (hc : sysInv c) :
    sysInv (c ++ [t]) := by
  obtain ⟨h1, h2⟩ := hc
  constructor
  · rw [List.filter_append]
    have he : [t].filter (fun m => m.role == "system") = [] := by
      simp [List.filter_cons, ht]
    rw [he, List.append_nil]
    exact h1
  · intro m hm
    cases c with
    | nil => simp at hm
    | cons a cs =>
      simp only [List.cons_append, List.drop_succ_cons, List.drop_zero,
        List.mem_append, List.mem_singleton] at hm
      rcases hm with hm | rfl
      · exact h2 m (by simpa using hm)
      · exact ht

lemma sysInv_trim (c : List Turn) (k : Nat) : sysInv (trim_history c k) := by
  constructor
  · rw [filter_sys_trim, List.length_take]
    omega
  · rw [trim_history_def]
    refine drop_one_append_small _ _ _ (List.length_take_le 1 _) ?_
    intro x hx
    have h := mem_slice_nonsys c k x hx
    simp only [bne_iff_ne, ne_eq] at h
    simp [h]

/-! ### Concrete scenarios used as witnesses and counterexamples -/

/-- A conversation with a system preamble and six non-system turns. -/
def demo_history : List Turn :=
  [⟨"system", "s", "t"⟩, ⟨"user", "u1", "t"⟩, ⟨"assistant", "a1", "t"⟩,
   ⟨"user", "u2", "t"⟩, ⟨"assistant", "a2", "t"⟩, ⟨"user", "u3", "t"⟩,
   ⟨"assistant", "a3", "t"⟩]

/-- A conversation with a system preamble and ten non-system turns. -/
def ten_history : List Turn :=
  [⟨"system", "s", "t"⟩, ⟨"user", "u1", "t"⟩, ⟨"assistant", "a1", "t"⟩,
   ⟨"user", "u2", "t"⟩, ⟨"assistant", "a2", "t"⟩, ⟨"user", "u3", "t"⟩,
   ⟨"assistant", "a3", "t"⟩, ⟨"user", "u4", "t"⟩, ⟨"assistant", "a4", "t"⟩,
   ⟨"user", "u5", "t"⟩, ⟨"assistant", "a5", "t"⟩]

/-- A Completion Client that fails with a quota signal on every call. -/
def always429 : Nat → Outcome := fun _ => Outcome.failure "429"

/-- A Completion Client that fails with a non-quota 500 error on every call. -/
def client500 : Nat → Outcome := fun _ => Outcome.failure "500 Internal Server Error"

/-- A Completion Client that fails with a quota signal on the first call and
succeeds on every later call. -/
def quotaThenOk : Nat → Outcome :=
  fun i => if i = 0 then Outcome.failure "429 quota" else Outcome.success "ok"

/-! ### Claim theorems -/

/-- Claim C4, counterexample: with `keepTurns = 0` the trimmed conversation
can be longer than `1 + 0`, because the Python slice `[-0:]` keeps the whole
list. A two-turn conversation trimmed with `k = 0` still has 2 turns. -/
theorem C4_counterexample :
    ¬ ((trim_history [⟨"user", "u1", "t"⟩, ⟨"user", "u2", "t"⟩] 0).length ≤ 1 + 0) := by
  decide

/-- Claim C4 (amended: `k ≥ 1`): for every conversation `c` and every
`k ≥ 1`, the length of `trim(c, k)` is at most `1 + k`. -/
theorem C4_trim_length_le (c : List Turn) (k : Nat) (hk : 1 ≤ k) :
    (trim_history c k).length ≤ 1 + k := by
  rw [trim_history_def, List.length_append, if_neg (by omega : ¬ k = 0),
    List.length_drop, List.length_take]
  omega

/-- Witness for C4: the amended bound evaluated at a concrete conversation
with six non-system turns and `k = 6`. -/
theorem C4_trim_length_le_witness :
    (trim_history demo_history 6).length ≤ 1 + 6 :=
  C4_trim_length_le demo_history 6 (by omega)

/-- Claim C7: trimming is idempotent at `keepTurns = 6`:
`trim(trim(c, 6), 6) = trim(c, 6)` for every conversation `c`. -/
theorem C7_trim_idempotent (c : List Turn) :
    trim_history (trim_history c 6) 6 = trim_history c 6 := by
  have h6 : ¬ ((6 : Nat) = 0) := by omega
  conv_lhs => rw [trim_history_def (trim_history c 6) 6]
  rw [filter_sys_trim, filter_nonsys_trim]
  simp only [if_neg h6]
  rw [List.take_take]
  have hmin : min 1 1 = 1 := rfl
  rw [hmin]
  have hD : ((c.filter (fun m => m.role != "system")).drop
      ((c.filter (fun m => m.role != "system")).length - 6)).length - 6 = 0 := by
    rw [List.length_drop]
    omega
  rw [hD, List.drop_zero, trim_history_def c 6]
  simp only [if_neg h6]

/-- Claim C8, counterexample: at `keepTurns = 0` the code does not return
"the last 0 non-system turns" (the empty list) but the whole non-system list,
so the trimmer differs from the spec description there. -/
theorem C8_counterexample :
    trim_history [⟨"user", "u1", "t"⟩] 0 ≠ trim_spec [⟨"user", "u1", "t"⟩] 0 := by
  decide

/-- Claim C8 (amended: `keepTurns ≥ 1`): for every conversation and every
`keepTurns ≥ 1`, the trimmer returns the first system turn (if any) followed
by the last `keepTurns` non-system turns in their original order. -/
theorem C8_trim_characterization (c : List Turn) (k : Nat) (hk : 1 ≤ k) :
    trim_history c k = trim_spec c k := by
  rw [trim_history_def, trim_spec, last_turns_eq_drop, first_system,
    ← take_one_filter_eq_find, if_neg (by omega : ¬ k = 0)]

/-- Witness for C8: the scenario from the spec, a conversation with one
system turn and ten non-system turns trimmed with `keepTurns = 6`: the result
matches the spec-side description, has exactly 7 turns, and its non-system
part is the chronologically last 6 of the original 10. -/
theorem C8_trim_characterization_witness :
    trim_history ten_history 6 = trim_spec ten_history 6 ∧
    (trim_history ten_history 6).length = 7 ∧
    trim_history ten_history 6 =
      [⟨"system", "s", "t"⟩, ⟨"user", "u3", "t"⟩, ⟨"assistant", "a3", "t"⟩,
       ⟨"user", "u4", "t"⟩, ⟨"assistant", "a4", "t"⟩, ⟨"user", "u5", "t"⟩,
       ⟨"assistant", "a5", "t"⟩] := by
  refine ⟨C8_trim_characterization ten_history 6 (by omega), by decide, by decide⟩

/-- Claim C9: creation and reset of the conversation, appending a user or
assistant turn, and trimming all preserve the invariant that at most one turn
has role `system` and, if present, it sits at index 0; moreover if the head
of the conversation is the system turn then trimming keeps it at index 0
unchanged, for every `k ≥ 0`. -/
theorem C9_system_invariant :
    (∀ ts, sysInv (init_history ts)) ∧
    (∀ c input ts, sysInv c → sysInv (c ++ [user_turn input ts])) ∧
    (∀ c text ts, sysInv c → sysInv (c ++ [assistant_turn text ts])) ∧
    (∀ c k, sysInv c → sysInv (trim_history c k)) ∧
    (∀ c k m, c.head? = some m → m.role = "system" →
      (trim_history c k).head? = some m) := by
  refine ⟨?_, ?_, ?_, ?_, ?_⟩
  · intro ts
    constructor
    · simp [init_history, List.filter_cons]
    · intro m hm
      simp [init_history] at hm
  · intro c input ts hc
    exact sysInv_append_nonsys c _ (by simp [user_turn]) hc
  · intro c text ts hc
    exact sysInv_append_nonsys c _ (by simp [assistant_turn]) hc
  · intro c k _
    exact sysInv_trim c k
  · intro c k m hc hm
    exact trim_head_system c k m hc hm

/-- Witness for C9: the invariant clauses applied at concrete conversations,
with each hypothesis discharged by evaluation. -/
theorem C9_system_invariant_witness :
    sysInv (init_history "t0") ∧
    sysInv (demo_history ++ [user_turn "hi" "t1"]) ∧
    sysInv (demo_history ++ [assistant_turn "ok" "t2"]) ∧
    sysInv (trim_history demo_history 6) ∧
    (trim_history demo_history 6).head? = some ⟨"system", "s", "t"⟩ :=
  ⟨C9_system_invariant.1 "t0",
   C9_system_invariant.2.1 demo_history "hi" "t1" (by decide),
   C9_system_invariant.2.2.1 demo_history "ok" "t2" (by decide),
   C9_system_invariant.2.2.2.1 demo_history 6 (by decide),
   C9_system_invariant.2.2.2.2 demo_history 6 ⟨"system", "s", "t"⟩ (by decide) (by decide)⟩

/-- Claim C5: for every send, the Completion Client is invoked at most
`maxAttempts = 3` times, whatever the client outcomes and the credential. -/
theorem C5_at_most_three_calls (history0 : List Turn) (input : String)
    (key : Bool) (client : Nat → Outcome) (ts1 ts2 : String) :
    callCount (send history0 input key client ts1 ts2).2.2 ≤ 3 := by
  cases key with
  | false => simp [send, callCount]
  | true =>
    have hle := run_loop_callCount client
      (serialize_history (history0 ++ [user_turn input ts1])) 3 0
      (history0 ++ [user_turn input ts1])
    rcases hr : run_loop client
        (serialize_history (history0 ++ [user_turn input ts1])) 3 0
        (history0 ++ [user_turn input ts1]) with ⟨r, h2, evs⟩
    rw [hr] at hle
    cases r <;> simp [send, hr] <;> exact hle

/-- Claim C6: when the first Completion Client call fails with a message the
code does not classify as quota (no "429" substring, e.g. a 500 error), the
send makes exactly one call, performs no trim (the stored history is the
original plus the appended user turn), and surfaces the error immediately. -/
theorem C6_non_quota_single_call (history0 : List Turn) (input ts1 ts2 : String)
    (client : Nat → Outcome) (msg : String)
    (hcl : client 0 = Outcome.failure msg) (hq : has429 msg = false) :
    send history0 input true client ts1 ts2 =
      (SendResult.errored msg, history0 ++ [user_turn input ts1],
        [Event.call (serialize_history (history0 ++ [user_turn input ts1]))]) := by
  simp [send, run_loop, hcl, hq]

/-- Witness for C6: a client failing with a 500 error on the first call. -/
theorem C6_non_quota_single_call_witness :
    send demo_history "x" true client500 "tu" "ta" =
      (SendResult.errored "500 Internal Server Error",
        demo_history ++ [user_turn "x" "tu"],
        [Event.call (serialize_history (demo_history ++ [user_turn "x" "tu"]))]) :=
  C6_non_quota_single_call demo_history "x" "tu" "ta" client500
    "500 Internal Server Error" rfl (by decide)

/-- Claim C2, counterexample: with an always-429 client the code trims three
times in a send with maxAttempts = 3 — including on the final permitted
attempt, whose quota failure is followed by a trim (the last event of the
trace) before the fallback state; the claim allows at most two trims and no
trim after the final call. -/
theorem C2_counterexample :
    trimCount (send demo_history "x" true always429 "tu" "ta").2.2 = 3 ∧
    (send demo_history "x" true always429 "tu" "ta").2.2.getLast? =
      some Event.trim := by
  exact ⟨by decide, by decide⟩

/-- Claim C2 (amended): the trim transition is taken on every quota failure,
with no guard on the attempt number: any quota failure produces a call event
immediately followed by a trim event, and a quota failure on the final
permitted attempt (one unit of fuel left) trims the conversation and then
reaches the exhausted state that yields the fallback. -/
theorem C2_trim_on_every_quota_failure (client : Nat → Outcome) (prompt : String)
    (i : Nat) (h : List Turn) (msg : String)
    (hcl : client i = Outcome.failure msg) (hq : has429 msg = true) :
    (∀ n, ∃ rest, (run_loop client prompt (n + 1) i h).2.2 =
        Event.call prompt :: Event.trim :: rest) ∧
    run_loop client prompt 1 i h =
      (LoopResult.exhausted, trim_history h 6, [Event.call prompt, Event.trim]) := by
  constructor
  · intro n
    refine ⟨(run_loop client prompt n (i + 1) (trim_history h 6)).2.2, ?_⟩
    rw [run_loop, hcl]
    simp [hq]
  · rw [run_loop, hcl]
    simp [hq, run_loop]

/-- Witness for C2 (amended): the final-attempt clause at a concrete
conversation and an always-429 client. -/
theorem C2_trim_on_every_quota_failure_witness :
    run_loop always429 "p" 1 0 demo_history =
      (LoopResult.exhausted, trim_history demo_history 6,
        [Event.call "p", Event.trim]) :=
  (C2_trim_on_every_quota_failure always429 "p" 0 demo_history "429"
    rfl (by decide)).2

/-- Claim C3, counterexample: starting from a conversation with six
non-system turns, an all-429 send ends with 7 non-system turns (the six kept
by trimming plus the appended fallback assistant turn), not at most 6, even
though the final turn is the fallback assistant message. -/
theorem C3_counterexample :
    ¬ (((send demo_history "x" true always429 "tu" "ta").2.1.filter
        (fun m => m.role != "system")).length ≤ 6) ∧
    (send demo_history "x" true always429 "tu" "ta").2.1.getLast? =
      some (assistant_turn FALLBACK_MSG "ta") := by
  exact ⟨by decide, by decide⟩

/-- Claim C3 (amended): against a Completion Client that fails with a quota
signal on every call, the send ends with the conversation holding at most 7
non-system turns — at most 6 kept by the trimming plus the fallback assistant
turn appended last — and the final turn is the fallback assistant message,
which is also the surfaced reply. -/
theorem C3_exhaustion_fallback (history0 : List Turn) (input ts1 ts2 : String)
    (client : Nat → Outcome) (hq : ∀ i, isQuota (client i) = true) :
    ((send history0 input true client ts1 ts2).2.1.filter
        (fun m => m.role != "system")).length ≤ 7 ∧
    (send history0 input true client ts1 ts2).2.1.getLast? =
      some (assistant_turn FALLBACK_MSG ts2) ∧
    (send history0 input true client ts1 ts2).1 =
      SendResult.replied FALLBACK_MSG := by
  have hrun := run_loop_quota client
    (serialize_history (history0 ++ [user_turn input ts1])) hq 3 0
    (history0 ++ [user_turn input ts1]) (by omega)
  rcases hr : run_loop client
      (serialize_history (history0 ++ [user_turn input ts1])) 3 0
      (history0 ++ [user_turn input ts1]) with ⟨r, h2, evs⟩
  rw [hr] at hrun
  have hre : r = LoopResult.exhausted := hrun.1
  obtain ⟨h0, hh⟩ := hrun.2
  have hh2 : h2 = trim_history h0 6 := hh
  subst hre
  subst hh2
  have hsend : send history0 input true client ts1 ts2 =
      (SendResult.replied FALLBACK_MSG,
        trim_history h0 6 ++ [assistant_turn FALLBACK_MSG ts2], evs) := by
    simp [send, hr]
  refine ⟨?_, ?_, ?_⟩
  · rw [hsend, List.filter_append]
    have hfb : [assistant_turn FALLBACK_MSG ts2].filter
        (fun m => m.role != "system") = [assistant_turn FALLBACK_MSG ts2] := by
      simp [List.filter_cons, assistant_turn]
    rw [hfb, List.length_append]
    have := nonsys_trim_length_le h0 6 (by omega)
    simp only [List.length_cons, List.length_nil]
    omega
  · rw [hsend]
    exact List.getLast?_concat _
  · rw [hsend]

/-- Witness for C3 (amended): the always-429 client against the concrete
six-non-system-turn conversation. -/
theorem C3_exhaustion_fallback_witness :
    ((send demo_history "x" true always429 "tu" "ta").2.1.filter
        (fun m => m.role != "system")).length ≤ 7 ∧
    (send demo_history "x" true always429 "tu" "ta").2.1.getLast? =
      some (assistant_turn FALLBACK_MSG "ta") ∧
    (send demo_history "x" true always429 "tu" "ta").1 =
      SendResult.replied FALLBACK_MSG :=
  C3_exhaustion_fallback demo_history "x" "tu" "ta" always429 (fun _ => rfl)

/-- Claim C10: a failed send is not atomic. The user turn is appended before
the credential check and before any Completion Client call, so a send that
fails for a missing credential leaves the conversation as the original plus
the user turn, and a send that surfaces a provider error leaves the appended
user turn as the last turn of the conversation, with no assistant turn after
it. -/
theorem C10_failed_send_keeps_user_turn :
    (∀ (history0 : List Turn) (input : String) (client : Nat → Outcome)
        (ts1 ts2 : String),
      send history0 input false client ts1 ts2 =
        (SendResult.noKey, history0 ++ [user_turn input ts1], [])) ∧
    (∀ (history0 : List Turn) (input : String) (client : Nat → Outcome)
        (ts1 ts2 msg : String),
      (send history0 input true client ts1 ts2).1 = SendResult.errored msg →
      (send history0 input true client ts1 ts2).2.1.getLast? =
        some (user_turn input ts1)) := by
  constructor
  · intro history0 input client ts1 ts2
    simp [send]
  · intro history0 input client ts1 ts2 msg herr
    rcases hr : run_loop client
        (serialize_history (history0 ++ [user_turn input ts1])) 3 0
        (history0 ++ [user_turn input ts1]) with ⟨r, h2, evs⟩
    have hlast : (history0 ++ [user_turn input ts1]).getLast? =
        some (user_turn input ts1) := List.getLast?_concat _
    cases r with
    | ok t => simp [send, hr] at herr
    | exhausted => simp [send, hr] at herr
    | raised m =>
      have hres := run_loop_raised_getLast client
        (serialize_history (history0 ++ [user_turn input ts1])) 3 0
        (history0 ++ [user_turn input ts1]) (user_turn input ts1) m
        hlast rfl (by rw [hr])
      rw [hr] at hres
      simp only [send, Bool.not_true, if_false, hr]
      simpa using hres

/-- Witness for C10: a send that errors with a 500 provider failure leaves
the user turn last. -/
theorem C10_failed_send_keeps_user_turn_witness :
    (send demo_history "x" true client500 "tu" "ta").2.1.getLast? =
      some (user_turn "x" "tu") :=
  C10_failed_send_keeps_user_turn.2 demo_history "x" client500 "tu" "ta"
    "500 Internal Server Error" (by decide)

/-- Claim C1 (code-bug evidence): the prompt is computed once before the
retry loop, so after a 429 failure and the trim of the stored conversation,
the second attempt resends the serialization of the conversation as it stood
before the trim — even though the trimmed serialization differs. At this
concrete input the trace is call, trim, call with both calls carrying the
pre-trim prompt. -/
theorem C1_retry_resends_untrimmed_prompt :
    (send ten_history "help" true quotaThenOk "tu" "ta").2.2 =
      [Event.call (serialize_history (ten_history ++ [user_turn "help" "tu"])),
       Event.trim,
       Event.call (serialize_history (ten_history ++ [user_turn "help" "tu"]))] ∧
    serialize_history (trim_history (ten_history ++ [user_turn "help" "tu"]) 6) ≠
      serialize_history (ten_history ++ [user_turn "help" "tu"]) := by
  exact ⟨by decide, by decide⟩
